import Mathlib

/-!
Verification of the mail facade (`src/tuta-sdk/rust/sdk/src/mail_facade.rs`).

The facade's pure logic (adjacent-only deduplication via Rust `Vec::dedup`,
chunking into batches of `MAX_MAIL_UPDATE_LIMIT`, sequential service posts
with early abort on failure, the allow-list assertion of `simple_move_mail`,
and the three load pipelines) is embedded as executable Lean definitions.
External collaborators (the service executor and the crypto entity client)
are modelled as response oracles, and every operation additionally returns
the trace of requests it issued, so that claims about "which requests are
sent" become statements about that trace.
-/

namespace MailFacade

/-- Modelled from the spec: `GeneratedId` is an opaque sortable identifier
with defined minimum and maximum sentinel values (`generated_id.rs` is not
part of the sources under review; only the sentinels are consumed here). -/
structure GeneratedId where
  raw : String
deriving DecidableEq, Repr

/-- Modelled from the spec: the minimum sentinel identifier. -/
def GeneratedId.min_id : GeneratedId := ⟨"------------"⟩

/-- Modelled from the spec: the maximum sentinel identifier. -/
def GeneratedId.max_id : GeneratedId := ⟨"zzzzzzzzzzzz"⟩

/-- Modelled from the spec: composite key (list identifier, element
identifier) with component-wise equality. -/
structure IdTupleGenerated where
  list_id : GeneratedId
  element_id : GeneratedId
deriving DecidableEq, Repr

/-- Modelled from the spec: enumerated folder roles (`folder_system.rs` is
not part of the sources under review); the roles named by the spec are
Inbox, Trash, Sent, Archive, Spam. -/
inductive MailSetKind where
  | archive
  | inbox
  | sent
  | trash
  | spam
deriving DecidableEq, Repr

/-- Modelled from the spec: the numeric discriminant used when a
`MailSetKind` is sent over the wire (`folder_type as i64`); an injective
encoding of the closed variant set. -/
def MailSetKind.toI64 : MailSetKind → Int
  | .archive => 0
  | .inbox => 2
  | .sent => 3
  | .trash => 5
  | .spam => 6

/-- Modelled from the spec: error type surfaced by collaborators; the
facade constructs `internal` errors itself and propagates everything else
verbatim. -/
inductive ApiCallError where
  | internal (msg : String)
  | serverResponseError (code : Nat)
deriving DecidableEq, Repr

/-- Maximum number of mails that can be moved or modified in a single
request (`MAX_MAIL_UPDATE_LIMIT` in `mail_facade.rs`). -/
def MAX_MAIL_UPDATE_LIMIT : Nat := 50

/-- All allowed targets for the SimpleMoveMailService
(`ALLOWED_SIMPLE_MOVE_MAIL_TARGETS` in `mail_facade.rs`). -/
def ALLOWED_SIMPLE_MOVE_MAIL_TARGETS : List MailSetKind := [MailSetKind.trash]

/-- Rust `Vec::dedup`: removes consecutive repeated elements, keeping the
first of each run (an element is removed iff it equals the last retained
element, which for equality-based dedup is its immediate predecessor). -/
def dedup_go {α : Type} [DecidableEq α] : α → List α → List α
  | _, [] => []
  | prev, x :: xs => if x = prev then dedup_go prev xs else x :: dedup_go x xs

/-- Rust `Vec::dedup` on the whole vector (`mails.dedup()`). -/
def dedup {α : Type} [DecidableEq α] : List α → List α
  | [] => []
  | a :: rest => a :: dedup_go a rest

/-- Rust slice `chunks(n)`: partitions a slice into contiguous chunks of
`n` elements, the last chunk possibly shorter; yields nothing on an empty
slice. (Rust panics on `n = 0`; the facade only uses `n = 50`.) -/
def chunks {α : Type} (n : Nat) : List α → List (List α)
  | [] => []
  | a :: rest =>
    if n = 0 then []
    else (a :: rest).take n :: chunks n (rest.drop (n - 1))
termination_by l => l.length
decreasing_by
  simp only [List.length_drop, List.length_cons]
  omega

/-- The request body posted to the UnreadMailStateService
(`UnreadMailStatePostIn`): format tag, unread flag, and the chunk's mail
keys. -/
structure UnreadMailStatePostIn where
  _format : Int
  unread : Bool
  mails : List IdTupleGenerated
deriving DecidableEq, Repr

/-- The request body posted to the SimpleMoveMailService
(`SimpleMoveMailPostIn`): format tag, destination kind discriminant, and
the chunk's mail keys. -/
structure SimpleMoveMailPostIn where
  _format : Int
  destinationSetType : Int
  mails : List IdTupleGenerated
deriving DecidableEq, Repr

/-- A typed service post issued by the facade to the service executor. -/
inductive PostRequest where
  | unreadState (body : UnreadMailStatePostIn)
  | simpleMove (body : SimpleMoveMailPostIn)
deriving DecidableEq, Repr

/-- The mail keys carried by a post request. -/
def PostRequest.mails : PostRequest → List IdTupleGenerated
  | .unreadState b => b.mails
  | .simpleMove b => b.mails

/-- The service executor collaborator, modelled as an oracle giving the
response to the `i`-th post issued during one facade call. -/
def Executor : Type := Nat → Except ApiCallError Unit

/-- An executor whose every post succeeds. -/
def execOk : Executor := fun _ => Except.ok ()

/-- The chunk-posting loop shared by `set_unread_status_for_mails` and
`simple_move_mail`: posts one request per chunk, sequentially and in
order, aborting at the first failure (`?` in the Rust `for` loop).
Returns the requests actually issued together with the final result. -/
def postChunks (mkBody : List IdTupleGenerated → PostRequest)
    (exec : Executor) :
    List (List IdTupleGenerated) → Nat → List PostRequest × Except ApiCallError Unit
  | [], _ => ([], Except.ok ())
  | c :: cs, i =>
    match exec i with
    | Except.ok _ =>
      let r := postChunks mkBody exec cs (i + 1)
      (mkBody c :: r.1, r.2)
    | Except.error e => ([mkBody c], Except.error e)

/-- `set_unread_status_for_mails`: dedups the input, chunks it into
batches of `MAX_MAIL_UPDATE_LIMIT`, and posts one `UnreadMailStatePostIn`
per chunk, sequentially, aborting on the first failure. -/
def set_unread_status_for_mails (exec : Executor)
    (mails : List IdTupleGenerated) (unread : Bool) :
    List PostRequest × Except ApiCallError Unit :=
  postChunks (fun c => PostRequest.unreadState ⟨0, unread, c⟩) exec
    (chunks MAX_MAIL_UPDATE_LIMIT (dedup mails)) 0

/-- The outcome of an operation that may panic (Rust `assert!` /
`unwrap`): either a panic, or completion with a `Result`. -/
inductive Outcome (α : Type) where
  | panicked
  | completed (r : Except ApiCallError α)
deriving Repr

/-- `simple_move_mail`: asserts the target kind is in
`ALLOWED_SIMPLE_MOVE_MAIL_TARGETS` (panicking before any post otherwise),
then dedups, chunks, and posts one `SimpleMoveMailPostIn` per chunk
carrying the destination kind discriminant. -/
def simple_move_mail (exec : Executor) (mails : List IdTupleGenerated)
    (folder_type : MailSetKind) : List PostRequest × Outcome Unit :=
  if ALLOWED_SIMPLE_MOVE_MAIL_TARGETS.contains folder_type then
    let r := postChunks
      (fun c => PostRequest.simpleMove ⟨0, folder_type.toI64, c⟩) exec
      (chunks MAX_MAIL_UPDATE_LIMIT (dedup mails)) 0
    (r.1, Outcome.completed r.2)
  else ([], Outcome.panicked)

/-- `trash_mails`: delegates to `simple_move_mail` with the Trash kind. -/
def trash_mails (exec : Executor) (mails : List IdTupleGenerated) :
    List PostRequest × Outcome Unit :=
  simple_move_mail exec mails MailSetKind.trash

/-- Concatenation of the mail keys carried by a sequence of issued
requests, in issue order. -/
def issuedMails (reqs : List PostRequest) : List IdTupleGenerated :=
  (reqs.map PostRequest.mails).flatten

/-- The spec's wording of the deduplication policy, helper: a single
left-to-right pass over the remaining input, removing an element iff it
equals its immediate predecessor in the original input. -/
def specDedup_go {α : Type} [DecidableEq α] : α → List α → List α
  | _, [] => []
  | p, x :: xs => if x = p then specDedup_go x xs else x :: specDedup_go x xs

/-- The spec's wording of the deduplication policy ("a single
left-to-right pass removing an element if it equals its immediate
predecessor in current input order"), to be compared with the source's
`dedup`. -/
def specDedup {α : Type} [DecidableEq α] : List α → List α
  | [] => []
  | a :: rest => a :: specDedup_go a rest

/-- Modelled from the spec: the user's group classification
(`groups.rs` is not part of the sources under review); the facade only
distinguishes Mail from every other classification. -/
inductive GroupType where
  | user
  | admin
  | mail
  | contact
  | calendar
deriving DecidableEq, Repr

/-- Modelled from the spec: a group membership of the current user, with
its group classification and group identifier. -/
structure GroupMembership where
  group : GeneratedId
  groupType : GroupType
deriving DecidableEq, Repr

/-- Modelled from the spec: the current user, exposing group
memberships. -/
structure User where
  memberships : List GroupMembership
deriving DecidableEq, Repr

/-- Modelled from the spec: the indirection entity linking a group
membership to its mailbox; holds the reference to the `MailBox`. -/
structure MailboxGroupRoot where
  mailbox : GeneratedId
deriving DecidableEq, Repr

/-- Modelled from the spec: the reference held by a mailbox to its folder
list (`MailboxFolderStructure` in the generated entities; only the folder
list identifier is consumed here). -/
structure FoldersRef where
  folders : GeneratedId
deriving DecidableEq, Repr

/-- Modelled from the spec: a folder node; the facade reads its mail list
identifier and (through `FolderSystem`) its kind. -/
structure MailFolder where
  mails : GeneratedId
  kind : MailSetKind
deriving DecidableEq, Repr

/-- Modelled from the spec: a single message; opaque to the facade. -/
structure Mail where
  id : IdTupleGenerated
deriving DecidableEq, Repr

/-- Modelled from the spec: the root container for a user's mail, with an
optional folder-list reference. -/
structure MailBox where
  folders : Option FoldersRef
deriving DecidableEq, Repr

/-- Modelled from the spec: the in-memory structural index over a flat
folder list, built once from the loaded folders (`FolderSystem::new`). -/
structure FolderSystem where
  folders : List MailFolder
deriving DecidableEq, Repr

/-- `FolderSystem::new`: builds the index from the flat folder list. -/
def FolderSystem.new (folders : List MailFolder) : FolderSystem := ⟨folders⟩

/-- The direction of a ranged load (`ListLoadDirection`). -/
inductive ListLoadDirection where
  | ASC
  | DESC
deriving DecidableEq, Repr

/-- A load issued to the crypto entity client, recorded in the trace of a
facade call. -/
inductive LoadEvent where
  | loadGroupRoot (id : GeneratedId)
  | loadMailBox (id : GeneratedId)
  | loadRange (list : GeneratedId) (start : GeneratedId) (count : Nat)
      (dir : ListLoadDirection)
deriving DecidableEq, Repr

/-- The crypto entity client collaborator, modelled as response oracles
for the typed loads the facade performs. -/
structure EntityClient where
  loadMailboxGroupRoot : GeneratedId → Except ApiCallError MailboxGroupRoot
  loadMailBox : GeneratedId → Except ApiCallError MailBox
  loadRangeFolders : GeneratedId → GeneratedId → Nat → ListLoadDirection →
    Except ApiCallError (List MailFolder)
  loadRangeMails : GeneratedId → GeneratedId → Nat → ListLoadDirection →
    Except ApiCallError (List Mail)

/-- `load_user_mailbox`: finds the first membership whose group type is
Mail (internal error when none exists), loads the `MailboxGroupRoot` for
that membership's group, then the `MailBox` it references; errors from
either load are propagated verbatim.  Returns the trace of single-entity
loads issued together with the result. -/
def load_user_mailbox (client : EntityClient) (user : User) :
    List LoadEvent × Except ApiCallError MailBox :=
  match user.memberships.find? (fun m => m.groupType = GroupType.mail) with
  | none => ([], Except.error (ApiCallError.internal "User does not have mail group"))
  | some m =>
    match client.loadMailboxGroupRoot m.group with
    | Except.error e => ([LoadEvent.loadGroupRoot m.group], Except.error e)
    | Except.ok group_root =>
      match client.loadMailBox group_root.mailbox with
      | Except.error e =>
        ([LoadEvent.loadGroupRoot m.group, LoadEvent.loadMailBox group_root.mailbox],
          Except.error e)
      | Except.ok mailbox =>
        ([LoadEvent.loadGroupRoot m.group, LoadEvent.loadMailBox group_root.mailbox],
          Except.ok mailbox)

/-- `load_folders_for_mailbox`: unwraps the mailbox's folder-list
reference (panicking when absent, before any load), issues one ranged
load from the minimum sentinel id, ascending, page size 100, and wraps
the returned folders in a `FolderSystem`. -/
def load_folders_for_mailbox (client : EntityClient) (mailbox : MailBox) :
    List LoadEvent × Outcome FolderSystem :=
  match mailbox.folders with
  | none => ([], Outcome.panicked)
  | some fref =>
    match client.loadRangeFolders fref.folders GeneratedId.min_id 100 ListLoadDirection.ASC with
    | Except.error e =>
      ([LoadEvent.loadRange fref.folders GeneratedId.min_id 100 ListLoadDirection.ASC],
        Outcome.completed (Except.error e))
    | Except.ok folders =>
      ([LoadEvent.loadRange fref.folders GeneratedId.min_id 100 ListLoadDirection.ASC],
        Outcome.completed (Except.ok (FolderSystem.new folders)))

/-- An executor whose every post fails. -/
def execErr : Executor := fun _ => Except.error (ApiCallError.internal "boom")

/-- A concrete stub entity client for instantiating the load claims. -/
def clientStub : EntityClient where
  loadMailboxGroupRoot := fun _ => Except.ok ⟨GeneratedId.max_id⟩
  loadMailBox := fun _ => Except.ok ⟨none⟩
  loadRangeFolders := fun _ _ _ _ => Except.ok []
  loadRangeMails := fun _ _ _ _ => Except.ok []

/-- `load_mails_in_folder`: issues one ranged load over the folder's mail
list from the maximum sentinel id, descending, page size 20, and returns
whatever list the entity client returns. -/
def load_mails_in_folder (client : EntityClient) (folder : MailFolder) :
    List LoadEvent × Except ApiCallError (List Mail) :=
  match client.loadRangeMails folder.mails GeneratedId.max_id 20 ListLoadDirection.DESC with
  | Except.error e =>
    ([LoadEvent.loadRange folder.mails GeneratedId.max_id 20 ListLoadDirection.DESC],
      Except.error e)
  | Except.ok mails =>
    ([LoadEvent.loadRange folder.mails GeneratedId.max_id 20 ListLoadDirection.DESC],
      Except.ok mails)

end MailFacade

namespace MailFacade

example : dedup [1, 1, 1, 2, 2, 1] = [1, 2, 1] := by decide
example : specDedup [1, 1, 1, 2, 2, 1] = [1, 2, 1] := by decide
example : chunks 2 [1, 2, 3, 4, 5] = [[1, 2], [3, 4], [5]] := by
  simp [chunks]
example : chunks 2 ([] : List Nat) = [] := by simp [chunks]

/-! ### Chunking lemmas -/

theorem chunks_cons_eq {α : Type} (n : Nat) (hn : n ≠ 0) (a : α) (rest : List α) :
    chunks n (a :: rest) = (a :: rest).take n :: chunks n ((a :: rest).drop n) := by
  obtain ⟨m, rfl⟩ : ∃ m, n = m + 1 := ⟨n - 1, by omega⟩
  simp [chunks]

theorem chunks_flatten {α : Type} (n : Nat) (hn : n ≠ 0) (l : List α) :
    (chunks n l).flatten = l := by
  cases l with
  | nil => simp [chunks]
  | cons a rest =>
    rw [chunks_cons_eq n hn]
    have ih := chunks_flatten n hn ((a :: rest).drop n)
    simp [List.flatten_cons, ih, List.take_append_drop]
termination_by l.length
decreasing_by
  simp only [List.length_drop, List.length_cons]
  omega

theorem chunks_length {α : Type} (n : Nat) (hn : n ≠ 0) (l : List α) :
    (chunks n l).length = (l.length + n - 1) / n := by
  cases l with
  | nil =>
    simp only [chunks, List.length_nil]
    rw [Nat.div_eq_of_lt (by omega)]
  | cons a rest =>
    rw [chunks_cons_eq n hn]
    have ih := chunks_length n hn ((a :: rest).drop n)
    simp only [List.length_cons, ih, List.length_drop]
    rw [show rest.length + 1 + n - 1 = (rest.length + 1 - 1) + n by omega,
      Nat.add_div_right _ (Nat.pos_of_ne_zero hn)]
    rcases Nat.lt_or_ge (rest.length + 1) n with h | h
    · rw [Nat.div_eq_of_lt (by omega), Nat.div_eq_of_lt (by omega)]
    · rw [show rest.length + 1 - n + n - 1 = rest.length + 1 - 1 by omega]
termination_by l.length
decreasing_by
  simp only [List.length_drop, List.length_cons]
  omega

theorem chunks_sizes {α : Type} (n : Nat) (hn : n ≠ 0) (l : List α) :
    (chunks n l).Forall (fun c => c.length ≤ n) := by
  cases l with
  | nil => simp [chunks]
  | cons a rest =>
    rw [chunks_cons_eq n hn]
    refine List.forall_cons _ _ _ |>.mpr ⟨?_, chunks_sizes n hn ((a :: rest).drop n)⟩
    simp only [List.length_take]
    omega
termination_by l.length
decreasing_by
  simp only [List.length_drop, List.length_cons]
  omega

/-! ### Deduplication lemmas -/

theorem dedup_go_eq_spec {α : Type} [DecidableEq α] :
    ∀ (xs : List α) (prev : α), dedup_go prev xs = specDedup_go prev xs := by
  intro xs
  induction xs with
  | nil => intro prev; rfl
  | cons x xs ih =>
    intro prev
    by_cases h : x = prev
    · subst h
      simp [dedup_go, specDedup_go, ih]
    · simp [dedup_go, specDedup_go, h, ih]

theorem dedup_eq_specDedup {α : Type} [DecidableEq α] (l : List α) :
    dedup l = specDedup l := by
  cases l with
  | nil => rfl
  | cons a rest => simp [dedup, specDedup, dedup_go_eq_spec]

theorem dedup_go_of_nodup {α : Type} [DecidableEq α] :
    ∀ (xs : List α) (prev : α), (prev :: xs).Nodup → dedup_go prev xs = xs := by
  intro xs
  induction xs with
  | nil => intro prev _; rfl
  | cons x xs ih =>
    intro prev h
    rw [List.nodup_cons] at h
    have hne : x ≠ prev := fun hx => h.1 (by simp [hx.symm])
    simp only [dedup_go, if_neg hne]
    rw [ih x h.2]

theorem dedup_of_nodup {α : Type} [DecidableEq α] (l : List α) (h : l.Nodup) :
    dedup l = l := by
  cases l with
  | nil => rfl
  | cons a rest => simp [dedup, dedup_go_of_nodup rest a h]

theorem dedup_go_replicate {α : Type} [DecidableEq α] (a : α) :
    ∀ k, dedup_go a (List.replicate k a) = [] := by
  intro k
  induction k with
  | zero => rfl
  | succ k ih => simp [List.replicate_succ, dedup_go, ih]

theorem dedup_replicate {α : Type} [DecidableEq α] (a : α) (k : Nat) (hk : 0 < k) :
    dedup (List.replicate k a) = [a] := by
  obtain ⟨j, rfl⟩ : ∃ j, k = j + 1 := ⟨k - 1, by omega⟩
  simp [List.replicate_succ, dedup, dedup_go_replicate]

/-! ### Post-loop lemmas -/

theorem postChunks_ok_of_all (mkBody : List IdTupleGenerated → PostRequest)
    (exec : Executor) :
    ∀ (cs : List (List IdTupleGenerated)) (i : Nat),
      (∀ j, j < cs.length → exec (i + j) = Except.ok ()) →
      postChunks mkBody exec cs i = (cs.map mkBody, Except.ok ()) := by
  intro cs
  induction cs with
  | nil => intro i _; rfl
  | cons c cs ih =>
    intro i h
    have h0 : exec i = Except.ok () := by simpa using h 0 (by simp)
    have hrest := ih (i + 1) (fun j hj => by
      rw [show i + 1 + j = i + (j + 1) by omega]
      exact h (j + 1) (by simpa using Nat.succ_lt_succ hj))
    simp [postChunks, h0, hrest]

theorem postChunks_error_at (mkBody : List IdTupleGenerated → PostRequest)
    (exec : Executor) :
    ∀ (cs : List (List IdTupleGenerated)) (i k : Nat) (e : ApiCallError),
      k < cs.length →
      (∀ j, j < k → exec (i + j) = Except.ok ()) →
      exec (i + k) = Except.error e →
      postChunks mkBody exec cs i = ((cs.take (k + 1)).map mkBody, Except.error e) := by
  intro cs
  induction cs with
  | nil =>
    intro i k e hk
    simp at hk
  | cons c cs ih =>
    intro i k e hk hok herr
    cases k with
    | zero =>
      have h0 : exec i = Except.error e := by simpa using herr
      simp [postChunks, h0]
    | succ k =>
      have h0 : exec i = Except.ok () := by simpa using hok 0 (Nat.succ_pos k)
      have hrest := ih (i + 1) k e (by simpa using Nat.lt_of_succ_lt_succ hk)
        (fun j hj => by
          rw [show i + 1 + j = i + (j + 1) by omega]
          exact hok (j + 1) (Nat.succ_lt_succ hj))
        (by
          rw [show i + 1 + k = i + (k + 1) by omega]
          exact herr)
      simp [postChunks, h0, hrest]

theorem postChunks_ok_iff (mkBody : List IdTupleGenerated → PostRequest)
    (exec : Executor) :
    ∀ (cs : List (List IdTupleGenerated)) (i : Nat),
      (postChunks mkBody exec cs i).2 = Except.ok () ↔
        ∀ j, j < cs.length → exec (i + j) = Except.ok () := by
  intro cs
  induction cs with
  | nil => intro i; simp [postChunks]
  | cons c cs ih =>
    intro i
    constructor
    · intro h j hj
      cases hex : exec i with
      | ok u =>
        cases u
        have h2 : (postChunks mkBody exec cs (i + 1)).2 = Except.ok () := by
          simpa [postChunks, hex] using h
        cases j with
        | zero => simpa using hex
        | succ j =>
          have := (ih (i + 1)).mp h2 j (by simpa using Nat.lt_of_succ_lt_succ hj)
          rw [show i + (j + 1) = i + 1 + j by omega]
          exact this
      | error e => simp [postChunks, hex] at h
    · intro h
      have h0 : exec i = Except.ok () := by simpa using h 0 (by simp)
      have h2 := (ih (i + 1)).mpr (fun j hj => by
        rw [show i + 1 + j = i + (j + 1) by omega]
        exact h (j + 1) (by simpa using Nat.succ_lt_succ hj))
      simp [postChunks, h0, h2]

theorem postChunks_fst_forall (mkBody : List IdTupleGenerated → PostRequest)
    (exec : Executor) (P : PostRequest → Prop) (hP : ∀ c, P (mkBody c)) :
    ∀ (cs : List (List IdTupleGenerated)) (i : Nat),
      (postChunks mkBody exec cs i).1.Forall P := by
  intro cs
  induction cs with
  | nil => intro i; simp [postChunks]
  | cons c cs ih =>
    intro i
    cases hex : exec i with
    | ok u =>
      cases u
      simpa [postChunks, hex, List.forall_cons] using ⟨hP c, ih (i + 1)⟩
    | error e => simp [postChunks, hex, List.forall_cons, hP c]

/-! ### Facade-level bridge lemmas -/

theorem contains_trash :
    ALLOWED_SIMPLE_MOVE_MAIL_TARGETS.contains MailSetKind.trash = true := by
  decide

theorem set_unread_eq_postChunks (exec : Executor)
    (mails : List IdTupleGenerated) (unread : Bool) :
    set_unread_status_for_mails exec mails unread =
      postChunks (fun c => PostRequest.unreadState ⟨0, unread, c⟩) exec
        (chunks MAX_MAIL_UPDATE_LIMIT (dedup mails)) 0 := rfl

theorem simple_move_mail_of_allowed (exec : Executor)
    (mails : List IdTupleGenerated) (folder_type : MailSetKind)
    (h : folder_type ∈ ALLOWED_SIMPLE_MOVE_MAIL_TARGETS) :
    simple_move_mail exec mails folder_type =
      (let r := postChunks
        (fun c => PostRequest.simpleMove ⟨0, folder_type.toI64, c⟩) exec
        (chunks MAX_MAIL_UPDATE_LIMIT (dedup mails)) 0
      (r.1, Outcome.completed r.2)) := by
  simp only [simple_move_mail, if_pos (List.elem_iff.mpr h)]

theorem simple_move_mail_of_not_allowed (exec : Executor)
    (mails : List IdTupleGenerated) (folder_type : MailSetKind)
    (h : folder_type ∉ ALLOWED_SIMPLE_MOVE_MAIL_TARGETS) :
    simple_move_mail exec mails folder_type = ([], Outcome.panicked) := by
  have hc : ALLOWED_SIMPLE_MOVE_MAIL_TARGETS.contains folder_type ≠ true :=
    fun hx => h (List.elem_iff.mp hx)
  simp only [simple_move_mail, if_neg hc]

theorem set_unread_execOk (mails : List IdTupleGenerated) (unread : Bool) :
    set_unread_status_for_mails execOk mails unread =
      ((chunks MAX_MAIL_UPDATE_LIMIT (dedup mails)).map
        (fun c => PostRequest.unreadState ⟨0, unread, c⟩), Except.ok ()) := by
  rw [set_unread_eq_postChunks]
  exact postChunks_ok_of_all _ _ _ 0 (fun j _ => rfl)

theorem simple_move_trash_execOk (mails : List IdTupleGenerated) :
    simple_move_mail execOk mails MailSetKind.trash =
      ((chunks MAX_MAIL_UPDATE_LIMIT (dedup mails)).map
        (fun c => PostRequest.simpleMove ⟨0, MailSetKind.trash.toI64, c⟩),
        Outcome.completed (Except.ok ())) := by
  rw [simple_move_mail_of_allowed execOk mails MailSetKind.trash (by decide)]
  rw [postChunks_ok_of_all _ _ _ 0 (fun j _ => rfl)]

theorem issuedMails_map_mk (cs : List (List IdTupleGenerated))
    (mk : List IdTupleGenerated → PostRequest)
    (hmk : ∀ c, (mk c).mails = c) :
    issuedMails (cs.map mk) = cs.flatten := by
  simp only [issuedMails, List.map_map]
  have : List.map (PostRequest.mails ∘ mk) cs = List.map id cs :=
    List.map_congr_left (fun c _ => hmk c)
  rw [this, List.map_id]

theorem chunks_singleton {α : Type} (n : Nat) (hn : n ≠ 0) (a : α) :
    chunks n [a] = [[a]] := by
  obtain ⟨m, rfl⟩ : ∃ m, n = m + 1 := ⟨n - 1, by omega⟩
  rw [chunks_cons_eq _ (by omega)]
  simp [chunks]

theorem issued_unread_execOk (mails : List IdTupleGenerated) (unread : Bool) :
    issuedMails (set_unread_status_for_mails execOk mails unread).1 = dedup mails := by
  rw [set_unread_execOk]
  rw [issuedMails_map_mk (chunks MAX_MAIL_UPDATE_LIMIT (dedup mails))
    (fun c => PostRequest.unreadState ⟨0, unread, c⟩) (fun c => rfl)]
  exact chunks_flatten _ (by decide) _

theorem issued_move_trash_execOk (mails : List IdTupleGenerated) :
    issuedMails (simple_move_mail execOk mails MailSetKind.trash).1 = dedup mails := by
  rw [simple_move_trash_execOk]
  rw [issuedMails_map_mk (chunks MAX_MAIL_UPDATE_LIMIT (dedup mails))
    (fun c => PostRequest.simpleMove ⟨0, MailSetKind.trash.toI64, c⟩) (fun c => rfl)]
  exact chunks_flatten _ (by decide) _

theorem dedup_aba {α : Type} [DecidableEq α] (a b : α) (hab : a ≠ b) :
    dedup [a, b, a] = [a, b, a] := by
  simp [dedup, dedup_go, hab, hab.symm]

theorem find?_first {α : Type} (p : α → Bool) (pre : List α) (m : α)
    (post : List α) (hpre : ∀ x ∈ pre, p x = false) (hm : p m = true) :
    (pre ++ m :: post).find? p = some m := by
  induction pre with
  | nil => simp [List.find?_cons_of_pos, hm]
  | cons a pre ih =>
    have ha := hpre a (by simp)
    rw [List.cons_append, List.find?_cons_of_neg _ (by simp [ha])]
    exact ih (fun x hx => hpre x (by simp [hx]))

/-! ### Claim theorems -/

/-- C1: for every input list of mail keys, both `set_unread_status_for_mails`
and `simple_move_mail` (toward Trash) send to the service exactly the
adjacent-only deduplication of the input — the spec-worded single
left-to-right pass `specDedup` that removes an element iff it equals its
immediate predecessor; a run of one key repeated `k` times collapses to
exactly one request carrying that single key, while non-adjacent
duplicates as in `[a, b, a]` are preserved, both occurrences of `a`
appearing in the issued requests. -/
theorem claim_C1_adjacent_only_dedup (mails : List IdTupleGenerated) (unread : Bool) :
    issuedMails (set_unread_status_for_mails execOk mails unread).1 = specDedup mails ∧
    issuedMails (simple_move_mail execOk mails MailSetKind.trash).1 = specDedup mails ∧
    (∀ (a : IdTupleGenerated) (k : Nat), 0 < k →
      (set_unread_status_for_mails execOk (List.replicate k a) unread).1 =
        [PostRequest.unreadState ⟨0, unread, [a]⟩] ∧
      (simple_move_mail execOk (List.replicate k a) MailSetKind.trash).1 =
        [PostRequest.simpleMove ⟨0, MailSetKind.trash.toI64, [a]⟩]) ∧
    (∀ a b : IdTupleGenerated, a ≠ b →
      issuedMails (set_unread_status_for_mails execOk [a, b, a] unread).1 = [a, b, a] ∧
      issuedMails (simple_move_mail execOk [a, b, a] MailSetKind.trash).1 = [a, b, a]) := by
  refine ⟨?_, ?_, ?_, ?_⟩
  · rw [issued_unread_execOk, dedup_eq_specDedup]
  · rw [issued_move_trash_execOk, dedup_eq_specDedup]
  · intro a k hk
    constructor
    · rw [set_unread_execOk, dedup_replicate a k hk,
        chunks_singleton _ (by decide)]
      rfl
    · rw [simple_move_trash_execOk, dedup_replicate a k hk,
        chunks_singleton _ (by decide)]
      rfl
  · intro a b hab
    rw [issued_unread_execOk, issued_move_trash_execOk, dedup_aba a b hab]
    exact ⟨rfl, rfl⟩

/-- C1 witness: instantiation at concrete keys — a run of one key repeated
100 times collapses to a single one-key request, and the non-adjacent
duplicates in `[a, b, a]` are both kept. -/
theorem claim_C1_adjacent_only_dedup_witness :
    (set_unread_status_for_mails execOk
        (List.replicate 100 (⟨⟨"L"⟩, ⟨"a"⟩⟩ : IdTupleGenerated)) true).1 =
      [PostRequest.unreadState ⟨0, true, [⟨⟨"L"⟩, ⟨"a"⟩⟩]⟩] ∧
    issuedMails (set_unread_status_for_mails execOk
        [⟨⟨"L"⟩, ⟨"a"⟩⟩, ⟨⟨"L"⟩, ⟨"b"⟩⟩, ⟨⟨"L"⟩, ⟨"a"⟩⟩] true).1 =
      [⟨⟨"L"⟩, ⟨"a"⟩⟩, ⟨⟨"L"⟩, ⟨"b"⟩⟩, ⟨⟨"L"⟩, ⟨"a"⟩⟩] :=
  ⟨((claim_C1_adjacent_only_dedup [] true).2.2.1 ⟨⟨"L"⟩, ⟨"a"⟩⟩ 100 (by decide)).1,
   ((claim_C1_adjacent_only_dedup [] true).2.2.2 ⟨⟨"L"⟩, ⟨"a"⟩⟩ ⟨⟨"L"⟩, ⟨"b"⟩⟩
      (by decide)).1⟩

/-- C2: for every duplicate-free mail-key list of length `L`, both
`set_unread_status_for_mails` and `simple_move_mail` (toward Trash) issue
exactly `⌈L / 50⌉` requests, each carrying at most 50 keys
(`MAX_MAIL_UPDATE_LIMIT`), in original order, with the concatenation of
the requests' key lists equal to the input; in particular one key yields
one request and 100 distinct keys yield two requests of 50 and 50 keys. -/
theorem claim_C2_chunking (mails : List IdTupleGenerated) (unread : Bool)
    (hnd : mails.Nodup) :
    (set_unread_status_for_mails execOk mails unread).1.length =
      (mails.length + MAX_MAIL_UPDATE_LIMIT - 1) / MAX_MAIL_UPDATE_LIMIT ∧
    (simple_move_mail execOk mails MailSetKind.trash).1.length =
      (mails.length + MAX_MAIL_UPDATE_LIMIT - 1) / MAX_MAIL_UPDATE_LIMIT ∧
    (set_unread_status_for_mails execOk mails unread).1.Forall
      (fun r => r.mails.length ≤ MAX_MAIL_UPDATE_LIMIT) ∧
    (simple_move_mail execOk mails MailSetKind.trash).1.Forall
      (fun r => r.mails.length ≤ MAX_MAIL_UPDATE_LIMIT) ∧
    issuedMails (set_unread_status_for_mails execOk mails unread).1 = mails ∧
    issuedMails (simple_move_mail execOk mails MailSetKind.trash).1 = mails ∧
    (set_unread_status_for_mails execOk mails unread).2 = Except.ok () ∧
    (simple_move_mail execOk mails MailSetKind.trash).2 =
      Outcome.completed (Except.ok ()) ∧
    (mails.length = 1 →
      (set_unread_status_for_mails execOk mails unread).1.length = 1 ∧
      (simple_move_mail execOk mails MailSetKind.trash).1.length = 1) ∧
    (mails.length = 100 →
      (set_unread_status_for_mails execOk mails unread).1.map
        (fun r => r.mails.length) = [50, 50] ∧
      (simple_move_mail execOk mails MailSetKind.trash).1.map
        (fun r => r.mails.length) = [50, 50]) := by
  have hd : dedup mails = mails := dedup_of_nodup mails hnd
  have hlen1 : (set_unread_status_for_mails execOk mails unread).1.length =
      (mails.length + MAX_MAIL_UPDATE_LIMIT - 1) / MAX_MAIL_UPDATE_LIMIT := by
    rw [set_unread_execOk, hd]
    simp only [List.length_map]
    exact chunks_length _ (by decide) mails
  have hlen2 : (simple_move_mail execOk mails MailSetKind.trash).1.length =
      (mails.length + MAX_MAIL_UPDATE_LIMIT - 1) / MAX_MAIL_UPDATE_LIMIT := by
    rw [simple_move_trash_execOk, hd]
    simp only [List.length_map]
    exact chunks_length _ (by decide) mails
  have hsize : (chunks MAX_MAIL_UPDATE_LIMIT mails).Forall
      (fun c => c.length ≤ MAX_MAIL_UPDATE_LIMIT) := chunks_sizes _ (by decide) mails
  have hforall1 : (set_unread_status_for_mails execOk mails unread).1.Forall
      (fun r => r.mails.length ≤ MAX_MAIL_UPDATE_LIMIT) := by
    rw [set_unread_execOk, hd, List.forall_iff_forall_mem]
    intro r hr
    obtain ⟨c, hc, rfl⟩ := List.mem_map.mp hr
    exact List.forall_iff_forall_mem.mp hsize c hc
  have hforall2 : (simple_move_mail execOk mails MailSetKind.trash).1.Forall
      (fun r => r.mails.length ≤ MAX_MAIL_UPDATE_LIMIT) := by
    rw [simple_move_trash_execOk, hd, List.forall_iff_forall_mem]
    intro r hr
    obtain ⟨c, hc, rfl⟩ := List.mem_map.mp hr
    exact List.forall_iff_forall_mem.mp hsize c hc
  have hcat1 : issuedMails (set_unread_status_for_mails execOk mails unread).1 = mails := by
    rw [issued_unread_execOk, hd]
  have hcat2 : issuedMails (simple_move_mail execOk mails MailSetKind.trash).1 = mails := by
    rw [issued_move_trash_execOk, hd]
  have hflat : (chunks MAX_MAIL_UPDATE_LIMIT mails).flatten = mails :=
    chunks_flatten _ (by decide) mails
  refine ⟨hlen1, hlen2, hforall1, hforall2, hcat1, hcat2, ?_, ?_, ?_, ?_⟩
  · rw [set_unread_execOk]
  · rw [simple_move_trash_execOk]
  · intro h1
    rw [hlen1, hlen2, h1]
    exact ⟨by decide, by decide⟩
  · intro h100
    have hcl : (chunks MAX_MAIL_UPDATE_LIMIT mails).length = 2 := by
      rw [chunks_length _ (by decide) mails, h100]
      decide
    obtain ⟨c1, c2, hc⟩ := List.length_eq_two.mp hcl
    have hsum : c1.length + c2.length = 100 := by
      have := hflat
      rw [hc] at this
      simp only [List.flatten_cons, List.flatten_nil, List.append_nil] at this
      have := congrArg List.length this
      simpa [h100] using this
    have hb : c1.length ≤ 50 ∧ c2.length ≤ 50 := by
      have := hsize
      rw [hc] at this
      simp only [List.forall_cons] at this
      exact ⟨this.1, this.2.1⟩
    have h50 : c1.length = 50 ∧ c2.length = 50 := by omega
    constructor
    · rw [set_unread_execOk, hd, hc]
      simp [PostRequest.mails, h50.1, h50.2]
    · rw [simple_move_trash_execOk, hd, hc]
      simp [PostRequest.mails, h50.1, h50.2]

/-- C2 witness: instantiation at a single concrete key — exactly one
request is issued, carrying it alone, and the operation succeeds. -/
theorem claim_C2_chunking_witness :
    issuedMails (set_unread_status_for_mails execOk
        [(⟨⟨"L"⟩, ⟨"a"⟩⟩ : IdTupleGenerated)] true).1 = [⟨⟨"L"⟩, ⟨"a"⟩⟩] ∧
    (set_unread_status_for_mails execOk
        [(⟨⟨"L"⟩, ⟨"a"⟩⟩ : IdTupleGenerated)] true).1.length = 1 :=
  ⟨(claim_C2_chunking [⟨⟨"L"⟩, ⟨"a"⟩⟩] true (by simp)).2.2.2.2.1,
   ((claim_C2_chunking [⟨⟨"L"⟩, ⟨"a"⟩⟩] true (by simp)).2.2.2.2.2.2.2.2.1 rfl).1⟩

/-- C3: for every input and every target folder kind outside the fixed
allow-list (which contains only the Trash kind), `simple_move_mail` panics
— a fatal contract violation — before any service post is issued (the
request trace is empty); conversely, when the kind is in the allow-list
the validation never fails: the call always completes (never panics). -/
theorem claim_C3_target_allowlist (exec : Executor)
    (mails : List IdTupleGenerated) (folder_type : MailSetKind) :
    (folder_type ∉ ALLOWED_SIMPLE_MOVE_MAIL_TARGETS →
      simple_move_mail exec mails folder_type = ([], Outcome.panicked)) ∧
    (folder_type ∈ ALLOWED_SIMPLE_MOVE_MAIL_TARGETS →
      (simple_move_mail exec mails folder_type).2 ≠ Outcome.panicked) := by
  constructor
  · intro h
    exact simple_move_mail_of_not_allowed exec mails folder_type h
  · intro h hc
    rw [simple_move_mail_of_allowed exec mails folder_type h] at hc
    exact Outcome.noConfusion hc

/-- C3 witness: the Archive kind (outside the allow-list) panics with no
post issued, while the Trash kind never trips the validation. -/
theorem claim_C3_target_allowlist_witness :
    simple_move_mail execOk [] MailSetKind.archive = ([], Outcome.panicked) ∧
    (simple_move_mail execOk [] MailSetKind.trash).2 ≠ Outcome.panicked :=
  ⟨(claim_C3_target_allowlist execOk [] MailSetKind.archive).1 (by decide),
   (claim_C3_target_allowlist execOk [] MailSetKind.trash).2 (by decide)⟩

/-- C4: in both mutation operations, if every post before the `k`-th
succeeds and the `k`-th post fails with `e`, then exactly the requests for
chunks `0..k` are issued (the first `k + 1`, no later chunk is posted) and
the operation returns that first failure unchanged; and the operation
succeeds if and only if every chunk's post succeeds. -/
theorem claim_C4_sequential_abort (exec : Executor)
    (mails : List IdTupleGenerated) (unread : Bool) (k : Nat) (e : ApiCallError) :
    (k < (chunks MAX_MAIL_UPDATE_LIMIT (dedup mails)).length →
      (∀ j, j < k → exec j = Except.ok ()) →
      exec k = Except.error e →
      set_unread_status_for_mails exec mails unread =
        (((chunks MAX_MAIL_UPDATE_LIMIT (dedup mails)).take (k + 1)).map
          (fun c => PostRequest.unreadState ⟨0, unread, c⟩), Except.error e) ∧
      simple_move_mail exec mails MailSetKind.trash =
        (((chunks MAX_MAIL_UPDATE_LIMIT (dedup mails)).take (k + 1)).map
          (fun c => PostRequest.simpleMove ⟨0, MailSetKind.trash.toI64, c⟩),
          Outcome.completed (Except.error e))) ∧
    ((set_unread_status_for_mails exec mails unread).2 = Except.ok () ↔
      ∀ j, j < (chunks MAX_MAIL_UPDATE_LIMIT (dedup mails)).length →
        exec j = Except.ok ()) ∧
    ((simple_move_mail exec mails MailSetKind.trash).2 =
        Outcome.completed (Except.ok ()) ↔
      ∀ j, j < (chunks MAX_MAIL_UPDATE_LIMIT (dedup mails)).length →
        exec j = Except.ok ()) := by
  refine ⟨?_, ?_, ?_⟩
  · intro hk hok herr
    constructor
    · rw [set_unread_eq_postChunks]
      exact postChunks_error_at _ _ _ 0 k e hk
        (fun j hj => by simpa using hok j hj) (by simpa using herr)
    · rw [simple_move_mail_of_allowed exec mails MailSetKind.trash (by decide)]
      rw [postChunks_error_at _ _ _ 0 k e hk
        (fun j hj => by simpa using hok j hj) (by simpa using herr)]
  · rw [set_unread_eq_postChunks]
    simpa using postChunks_ok_iff _ exec (chunks MAX_MAIL_UPDATE_LIMIT (dedup mails)) 0
  · rw [simple_move_mail_of_allowed exec mails MailSetKind.trash (by decide)]
    have hiff := postChunks_ok_iff
      (fun c => PostRequest.simpleMove ⟨0, MailSetKind.trash.toI64, c⟩) exec
      (chunks MAX_MAIL_UPDATE_LIMIT (dedup mails)) 0
    constructor
    · intro hc
      have hc2 : Outcome.completed
          ((postChunks (fun c => PostRequest.simpleMove ⟨0, MailSetKind.trash.toI64, c⟩)
            exec (chunks MAX_MAIL_UPDATE_LIMIT (dedup mails)) 0).2) =
          Outcome.completed (Except.ok ()) := hc
      intro j hj
      simpa using hiff.mp (Outcome.completed.inj hc2) j hj
    · intro h
      have := hiff.mpr (fun j hj => by simpa using h j (by simpa using hj))
      simp [this]

/-- C4 witness: with one concrete key and a first post that fails, exactly
one request is issued and the failure is returned unchanged; with an
all-success executor the operation succeeds. -/
theorem claim_C4_sequential_abort_witness :
    set_unread_status_for_mails execErr [(⟨⟨"L"⟩, ⟨"a"⟩⟩ : IdTupleGenerated)] true =
      (((chunks MAX_MAIL_UPDATE_LIMIT
          (dedup [(⟨⟨"L"⟩, ⟨"a"⟩⟩ : IdTupleGenerated)])).take 1).map
        (fun c => PostRequest.unreadState ⟨0, true, c⟩),
        Except.error (ApiCallError.internal "boom")) ∧
    (set_unread_status_for_mails execOk
      [(⟨⟨"L"⟩, ⟨"a"⟩⟩ : IdTupleGenerated)] true).2 = Except.ok () :=
  ⟨((claim_C4_sequential_abort execErr [⟨⟨"L"⟩, ⟨"a"⟩⟩] true 0
      (ApiCallError.internal "boom")).1
      (by rw [show dedup [(⟨⟨"L"⟩, ⟨"a"⟩⟩ : IdTupleGenerated)] =
            [⟨⟨"L"⟩, ⟨"a"⟩⟩] from rfl,
          chunks_singleton MAX_MAIL_UPDATE_LIMIT (by decide)]
          ; decide)
      (fun j hj => absurd hj (Nat.not_lt_zero j)) rfl).1,
   (claim_C4_sequential_abort execOk [⟨⟨"L"⟩, ⟨"a"⟩⟩] true 0
      (ApiCallError.internal "boom")).2.1.mpr (fun j _ => rfl)⟩

/-- C9: `trash_mails` behaves identically to `simple_move_mail` toward the
Trash kind — same issued request sequence and same result — and every
request it issues is a move request carrying the Trash destination kind. -/
theorem claim_C9_trash_mails_refinement (exec : Executor)
    (mails : List IdTupleGenerated) :
    trash_mails exec mails = simple_move_mail exec mails MailSetKind.trash ∧
    (trash_mails exec mails).1.Forall (fun r =>
      ∃ c, r = PostRequest.simpleMove ⟨0, MailSetKind.trash.toI64, c⟩) := by
  refine ⟨rfl, ?_⟩
  show (simple_move_mail exec mails MailSetKind.trash).1.Forall _
  rw [simple_move_mail_of_allowed exec mails MailSetKind.trash (by decide)]
  exact postChunks_fst_forall _ _ _ (fun c => ⟨c, rfl⟩) _ 0

/-- C10: on the empty input, `set_unread_status_for_mails` succeeds with
zero posts; `simple_move_mail` with an allow-listed kind likewise succeeds
with zero posts; and with a non-allow-listed kind the validation still
runs first and panics even though there is nothing to move. -/
theorem claim_C10_empty_input (exec : Executor) (unread : Bool)
    (folder_type : MailSetKind) :
    set_unread_status_for_mails exec [] unread = ([], Except.ok ()) ∧
    (folder_type ∈ ALLOWED_SIMPLE_MOVE_MAIL_TARGETS →
      simple_move_mail exec [] folder_type = ([], Outcome.completed (Except.ok ()))) ∧
    (folder_type ∉ ALLOWED_SIMPLE_MOVE_MAIL_TARGETS →
      simple_move_mail exec [] folder_type = ([], Outcome.panicked)) := by
  have hempty : chunks MAX_MAIL_UPDATE_LIMIT (dedup ([] : List IdTupleGenerated)) = [] := by
    simp [dedup, chunks]
  refine ⟨?_, ?_, ?_⟩
  · rw [set_unread_eq_postChunks, hempty]
    rfl
  · intro h
    rw [simple_move_mail_of_allowed exec [] folder_type h, hempty]
    rfl
  · intro h
    exact simple_move_mail_of_not_allowed exec [] folder_type h

/-- C10 witness: concrete empty-input runs for mark-unread, move-to-Trash
and a non-allow-listed move target. -/
theorem claim_C10_empty_input_witness :
    set_unread_status_for_mails execOk [] true = ([], Except.ok ()) ∧
    simple_move_mail execOk [] MailSetKind.trash =
      ([], Outcome.completed (Except.ok ())) ∧
    simple_move_mail execOk [] MailSetKind.spam = ([], Outcome.panicked) :=
  ⟨(claim_C10_empty_input execOk true MailSetKind.trash).1,
   (claim_C10_empty_input execOk true MailSetKind.trash).2.1 (by decide),
   (claim_C10_empty_input execOk true MailSetKind.spam).2.2 (by decide)⟩

/-- C5: `load_user_mailbox` selects the first membership whose group
classification is Mail; with no such membership it fails with an internal
error and performs no load; otherwise it performs exactly the two
sequential single-entity loads — the `MailboxGroupRoot` for the selected
membership's group, then the `MailBox` that root references — returning
the mailbox on success and propagating either load's error verbatim. -/
theorem claim_C5_load_user_mailbox (client : EntityClient) (user : User) :
    ((∀ m ∈ user.memberships, m.groupType ≠ GroupType.mail) →
      load_user_mailbox client user =
        ([], Except.error (ApiCallError.internal "User does not have mail group"))) ∧
    (∀ pre m post, user.memberships = pre ++ m :: post →
      (∀ x ∈ pre, x.groupType ≠ GroupType.mail) →
      m.groupType = GroupType.mail →
      ((∀ e, client.loadMailboxGroupRoot m.group = Except.error e →
        load_user_mailbox client user =
          ([LoadEvent.loadGroupRoot m.group], Except.error e)) ∧
      (∀ root, client.loadMailboxGroupRoot m.group = Except.ok root →
        ((∀ e, client.loadMailBox root.mailbox = Except.error e →
          load_user_mailbox client user =
            ([LoadEvent.loadGroupRoot m.group, LoadEvent.loadMailBox root.mailbox],
              Except.error e)) ∧
        (∀ mb, client.loadMailBox root.mailbox = Except.ok mb →
          load_user_mailbox client user =
            ([LoadEvent.loadGroupRoot m.group, LoadEvent.loadMailBox root.mailbox],
              Except.ok mb)))))) := by
  constructor
  · intro h
    have hnone : user.memberships.find? (fun m => m.groupType = GroupType.mail) = none :=
      List.find?_eq_none.mpr (fun x hx => by simpa using h x hx)
    simp [load_user_mailbox, hnone]
  · intro pre m post hsplit hpre hm
    have hfind : user.memberships.find? (fun m => m.groupType = GroupType.mail) = some m := by
      rw [hsplit]
      exact find?_first _ pre m post (fun x hx => by simpa using hpre x hx)
        (by simpa using hm)
    refine ⟨?_, ?_⟩
    · intro e he
      simp [load_user_mailbox, hfind, he]
    · intro root hroot
      refine ⟨?_, ?_⟩
      · intro e he
        simp [load_user_mailbox, hfind, hroot, he]
      · intro mb hmb
        simp [load_user_mailbox, hfind, hroot, hmb]

/-- C5 witness: a user whose second membership is the Mail one — the
facade selects it, loads the group root and then the mailbox, issuing
exactly those two loads. -/
theorem claim_C5_load_user_mailbox_witness :
    load_user_mailbox clientStub
        ⟨[⟨⟨"g0"⟩, GroupType.contact⟩, ⟨⟨"g1"⟩, GroupType.mail⟩]⟩ =
      ([LoadEvent.loadGroupRoot ⟨"g1"⟩, LoadEvent.loadMailBox GeneratedId.max_id],
        Except.ok ⟨none⟩) :=
  ((((claim_C5_load_user_mailbox clientStub
      ⟨[⟨⟨"g0"⟩, GroupType.contact⟩, ⟨⟨"g1"⟩, GroupType.mail⟩]⟩).2
    [⟨⟨"g0"⟩, GroupType.contact⟩] ⟨⟨"g1"⟩, GroupType.mail⟩ [] rfl
      (by simp) rfl).2 ⟨GeneratedId.max_id⟩ rfl).2 ⟨none⟩ rfl)

/-- C6: when the mailbox's folder-list reference is absent,
`load_folders_for_mailbox` fails fast with the unrecoverable fatal outcome
(the `unwrap` panic), not a silent empty result, and issues no ranged
load. -/
theorem claim_C6_missing_folder_list (client : EntityClient) (mailbox : MailBox)
    (h : mailbox.folders = none) :
    load_folders_for_mailbox client mailbox = ([], Outcome.panicked) ∧
    (∀ fs, (load_folders_for_mailbox client mailbox).2 ≠
      Outcome.completed (Except.ok fs)) := by
  have he : load_folders_for_mailbox client mailbox = ([], Outcome.panicked) := by
    simp [load_folders_for_mailbox, h]
  exact ⟨he, fun fs hc => by rw [he] at hc; exact Outcome.noConfusion hc⟩

/-- C6 witness: a mailbox without a folder-list reference makes the load
panic with an empty load trace. -/
theorem claim_C6_missing_folder_list_witness :
    load_folders_for_mailbox clientStub ⟨none⟩ = ([], Outcome.panicked) :=
  (claim_C6_missing_folder_list clientStub ⟨none⟩ rfl).1

/-- C7: for every mailbox with a present folder-list reference,
`load_folders_for_mailbox` issues exactly one ranged load over that folder
list — starting cursor the minimum sentinel id, ascending direction, page
size 100 — and, on success, returns the `FolderSystem` built from exactly
the returned folder list; a load error is propagated verbatim. -/
theorem claim_C7_load_folders_single_page (client : EntityClient)
    (mailbox : MailBox) (fref : FoldersRef) (h : mailbox.folders = some fref) :
    (load_folders_for_mailbox client mailbox).1 =
      [LoadEvent.loadRange fref.folders GeneratedId.min_id 100 ListLoadDirection.ASC] ∧
    (∀ fs, client.loadRangeFolders fref.folders GeneratedId.min_id 100
        ListLoadDirection.ASC = Except.ok fs →
      (load_folders_for_mailbox client mailbox).2 =
        Outcome.completed (Except.ok (FolderSystem.new fs))) ∧
    (∀ e, client.loadRangeFolders fref.folders GeneratedId.min_id 100
        ListLoadDirection.ASC = Except.error e →
      (load_folders_for_mailbox client mailbox).2 =
        Outcome.completed (Except.error e)) := by
  refine ⟨?_, ?_, ?_⟩
  · cases hr : client.loadRangeFolders fref.folders GeneratedId.min_id 100
        ListLoadDirection.ASC with
    | ok fs => simp [load_folders_for_mailbox, h, hr]
    | error e => simp [load_folders_for_mailbox, h, hr]
  · intro fs hfs
    simp [load_folders_for_mailbox, h, hfs]
  · intro e he
    simp [load_folders_for_mailbox, h, he]

/-- C7 witness: a concrete mailbox with a folder-list reference — exactly
one ranged load (min sentinel, ascending, page size 100) is issued and the
returned folders are wrapped in a `FolderSystem`. -/
theorem claim_C7_load_folders_single_page_witness :
    (load_folders_for_mailbox clientStub ⟨some ⟨⟨"fl"⟩⟩⟩).1 =
      [LoadEvent.loadRange ⟨"fl"⟩ GeneratedId.min_id 100 ListLoadDirection.ASC] ∧
    (load_folders_for_mailbox clientStub ⟨some ⟨⟨"fl"⟩⟩⟩).2 =
      Outcome.completed (Except.ok (FolderSystem.new [])) :=
  ⟨(claim_C7_load_folders_single_page clientStub ⟨some ⟨⟨"fl"⟩⟩⟩ ⟨⟨"fl"⟩⟩ rfl).1,
   (claim_C7_load_folders_single_page clientStub ⟨some ⟨⟨"fl"⟩⟩⟩ ⟨⟨"fl"⟩⟩ rfl).2.1 [] rfl⟩

/-- C8: for every folder, `load_mails_in_folder` issues exactly one ranged
load over the folder's mail list — starting cursor the maximum sentinel
id, descending direction, page size 20 — and returns exactly what the
entity store returns, success or error. -/
theorem claim_C8_load_mails_single_page (client : EntityClient)
    (folder : MailFolder) :
    (load_mails_in_folder client folder).1 =
      [LoadEvent.loadRange folder.mails GeneratedId.max_id 20 ListLoadDirection.DESC] ∧
    (load_mails_in_folder client folder).2 =
      client.loadRangeMails folder.mails GeneratedId.max_id 20 ListLoadDirection.DESC := by
  cases h : client.loadRangeMails folder.mails GeneratedId.max_id 20
      ListLoadDirection.DESC with
  | ok v => exact ⟨by simp [load_mails_in_folder, h], by simp [load_mails_in_folder, h]⟩
  | error e => exact ⟨by simp [load_mails_in_folder, h], by simp [load_mails_in_folder, h]⟩

end MailFacade
